import Mathlib

/-!
Verification of the seed_watcher core (package sources under `src/`):
the throughput frequency mapping and blinking loop of
`transmission.BlinkingDownloadSpeed`, the localization blinking loop of
`localization.BlinkingLocalization`, the monitor loops feeding them, the
ip-licitness check `check_licit_ip`, and the legacy `raspberry.blink_led`.

Numeric values (download speeds, frequencies, durations) are embedded as
rationals.  GPIO interaction is embedded as a trace of events; the timed
sleeps of the asyncio coroutines are the cancellation points, so a run
cancelled after completing `n` sleeps is embedded by cutting the infinite
loop's event stream at its `(n+1)`-th sleep and appending the events of the
`except asyncio.CancelledError` handler.
-/

namespace SeedWatcher

/-- A GPIO event emitted by a blinking coroutine: `GPIO.setup(pin, GPIO.OUT)`,
`GPIO.setup(pin, GPIO.IN)`, `GPIO.output(pin, level)` (`true` = HIGH), or
`await asyncio.sleep(t)`. -/
inductive GEvent
  | setupOut (pin : ℕ)
  | setupIn (pin : ℕ)
  | output (pin : ℕ) (level : Bool)
  | sleep (t : ℚ)
deriving DecidableEq, Repr

/-- Point update of a pin-level assignment, as `GPIO.output` does. -/
def updateLevel (L : ℕ → Bool) (p : ℕ) (b : Bool) : ℕ → Bool :=
  fun q => if q = p then b else L q

/-- Pin levels after executing a list of events from initial levels `L`. -/
def runLevels (L : ℕ → Bool) : List GEvent → (ℕ → Bool)
  | [] => L
  | GEvent.output p b :: rest => runLevels (updateLevel L p b) rest
  | GEvent.sleep _ :: rest => runLevels L rest
  | GEvent.setupOut _ :: rest => runLevels L rest
  | GEvent.setupIn _ :: rest => runLevels L rest

/-- The pin levels held during each timed sleep of an event list, paired with
the sleep's duration, in order of occurrence.  No event happens inside a
sleep, so these levels are held for the sleep's whole duration. -/
def sleepSnapshots (L : ℕ → Bool) : List GEvent → List ((ℕ → Bool) × ℚ)
  | [] => []
  | GEvent.output p b :: rest => sleepSnapshots (updateLevel L p b) rest
  | GEvent.sleep t :: rest => (L, t) :: sleepSnapshots L rest
  | GEvent.setupOut _ :: rest => sleepSnapshots L rest
  | GEvent.setupIn _ :: rest => sleepSnapshots L rest

/-- The durations of the timed sleeps of an event list, in order. -/
def sleepDurations : List GEvent → List ℚ
  | [] => []
  | GEvent.sleep t :: rest => t :: sleepDurations rest
  | GEvent.output _ _ :: rest => sleepDurations rest
  | GEvent.setupOut _ :: rest => sleepDurations rest
  | GEvent.setupIn _ :: rest => sleepDurations rest

/-- The drive mode a pin is left in by a list of events: `driving` after
`GPIO.setup(pin, GPIO.OUT)`, `neutral` after `GPIO.setup(pin, GPIO.IN)`,
starting from mode `m`. -/
inductive PinMode
  | driving
  | neutral
  | unknown
deriving DecidableEq, Repr

/-- Effect of one event on the drive mode of pin `p`. -/
def modeStep (p : ℕ) (acc : PinMode) : GEvent → PinMode
  | GEvent.setupOut q => if q = p then PinMode.driving else acc
  | GEvent.setupIn q => if q = p then PinMode.neutral else acc
  | GEvent.output _ _ => acc
  | GEvent.sleep _ => acc

/-- Final mode of pin `p` after executing the events, starting from mode `m`. -/
def modeAfter (p : ℕ) (events : List GEvent) (m : PinMode) : PinMode :=
  events.foldl (modeStep p) m

/-- Initial segment of an event stream up to (and excluding) its `(n+1)`-th
sleep: the events a coroutine has emitted when cancellation is delivered
while it is suspended in its `(n+1)`-th `asyncio.sleep`. -/
def cutAtSleep : ℕ → List GEvent → List GEvent
  | _, [] => []
  | n, GEvent.sleep t :: rest =>
      match n with
      | 0 => []
      | Nat.succ m => GEvent.sleep t :: cutAtSleep m rest
  | n, GEvent.setupOut p :: rest => GEvent.setupOut p :: cutAtSleep n rest
  | n, GEvent.setupIn p :: rest => GEvent.setupIn p :: cutAtSleep n rest
  | n, GEvent.output p b :: rest => GEvent.output p b :: cutAtSleep n rest

/-- A blinking coroutine run that was cancelled: the GPIO events it emitted
(teardown included) and whether it re-raises the `CancelledError` to its
caller after teardown. -/
structure CancelledRun where
  events : List GEvent
  propagates : Bool
deriving DecidableEq, Repr

/-! ## `transmission.BlinkingDownloadSpeed.blink_led` (src/src/transmission.py)

```
freq_min = 0.5; freq_max = 12; d_speed_max = int(0.75e+06)
freq = freq_min
if self.__download_speed:
    freq += ((freq_max - freq_min) / d_speed_max * self.__download_speed)
ontime = offtime = 1. / freq
```
-/

def freq_min : ℚ := 1/2

def freq_max : ℚ := 12

def d_speed_max : ℚ := 750000

/-- The blink frequency `blink_led` computes from the sampled download
speed `v`: `freq_min` plus, when `v` is nonzero (Python truthiness of
`if self.__download_speed:`), `(freq_max - freq_min) / d_speed_max * v`. -/
def blink_freq (v : ℚ) : ℚ :=
  if v = 0 then freq_min
  else freq_min + (freq_max - freq_min) / d_speed_max * v

/-- `ontime = offtime = 1. / freq` of `blink_led`. -/
def blink_ontime (v : ℚ) : ℚ := 1 / blink_freq v

/-- One iteration of the `while True` body of
`BlinkingDownloadSpeed.blink_led`, with `v` the download speed sampled at
this iteration: HIGH, sleep `ontime`, LOW, sleep `offtime`. -/
def trans_iter (led : ℕ) (v : ℚ) : List GEvent :=
  [GEvent.output led true, GEvent.sleep (blink_ontime v),
   GEvent.output led false, GEvent.sleep (blink_ontime v)]

/-- `k` iterations of the `blink_led` loop of `BlinkingDownloadSpeed`,
sampling the shared download speed as `samples 0, samples 1, ...`. -/
def trans_body (led : ℕ) (samples : ℕ → ℚ) : ℕ → List GEvent
  | 0 => []
  | Nat.succ k => trans_iter led (samples 0) ++ trans_body led (fun i => samples (i + 1)) k

/-- A run of `BlinkingDownloadSpeed.blink_led` cancelled while suspended in
its `(n+1)`-th sleep: `GPIO.setup(led, OUT)`, the loop's events up to that
sleep, then the handler `GPIO.setup(led, GPIO.IN)`.  The handler does not
re-raise, so the cancellation does not propagate. -/
def trans_blink_cancelled (led : ℕ) (samples : ℕ → ℚ) (n : ℕ) : CancelledRun :=
  { events := GEvent.setupOut led ::
      (cutAtSleep n (trans_body led samples (n + 1)) ++ [GEvent.setupIn led]),
    propagates := false }

/-- The frequency mapping as the specification words it, clamp included:
`s = clamp(v, 0, maxThroughput)`, then
`freq = minFrequencyHz + (maxFrequencyHz - minFrequencyHz) * (s / maxThroughput)`
when `s > 0`, else `minFrequencyHz`.  Stated for comparison with
`blink_freq`, which is the code's mapping. -/
def clamped_spec_freq (v : ℚ) : ℚ :=
  if 0 < max 0 (min v d_speed_max) then
    freq_min + (freq_max - freq_min) * (max 0 (min v d_speed_max) / d_speed_max)
  else freq_min

/-! ## `transmission.BlinkingDownloadSpeed.get_download_speed` monitor loop -/

/-- Outcome of one `get_transmision_session_stats` call as seen by the
monitor loop: no stats at all (`None`), stats lacking the
`downloadSpeed` key, or a download speed value. -/
inductive StatsResult
  | statsNone
  | missingKey
  | speed (v : ℚ)
deriving DecidableEq

/-- The value `get_download_speed` writes to `self.__download_speed` for
one stats outcome: `0` when stats is `None`, `0` on `KeyError`, the
reported speed otherwise. -/
def monitor_speed_value : StatsResult → ℚ
  | StatsResult.statsNone => 0
  | StatsResult.missingKey => 0
  | StatsResult.speed v => v

/-- An event of a monitor loop: a write to the shared state cell (speed or
licit flag) or a timed sleep of the loop's delay. -/
inductive MonEvent
  | writeSpeed (v : ℚ)
  | writeLicit (b : Bool)
  | sleep (d : ℚ)
deriving DecidableEq

/-- Trace of `get_download_speed` over a finite list of stats outcomes:
each iteration writes the derived speed then sleeps `delay`, and the loop
continues with the remaining outcomes. -/
def get_download_speed_trace (delay : ℚ) : List StatsResult → List MonEvent
  | [] => []
  | r :: rest => MonEvent.writeSpeed (monitor_speed_value r) :: MonEvent.sleep delay ::
      get_download_speed_trace delay rest

/-! ## `localization.check_licit_ip` and the localization monitor
(src/src/localization.py) -/

/-- `check_licit_ip`: the lookup result `loc` is the return of
`get_ip_localisation` (`none` on failure).  `if not loc: return False`
(Python falsiness: `None` or the empty string), then return `False` iff
`loc.lower()` is in the lowered forbidden-country list. -/
def check_licit_ip (loc : Option String) (forbidden_countries : List String) : Bool :=
  match loc with
  | none => false
  | some l =>
    if l = "" then false
    else if (forbidden_countries.map String.toLower).contains l.toLower then false
    else true

/-- Trace of `BlinkingLocalization.check_localisation_status` over a finite
list of lookup outcomes, with the injected checker being
`check_licit_ip · forbidden`: each iteration writes the checker's result to
`self._licit_ip` then sleeps `delay`. -/
def check_localisation_trace (forbidden : List String) (delay : ℚ) :
    List (Option String) → List MonEvent
  | [] => []
  | loc :: rest => MonEvent.writeLicit (check_licit_ip loc forbidden) :: MonEvent.sleep delay ::
      check_localisation_trace forbidden delay rest

/-! ## `localization.BlinkingLocalization.blink_led` (src/src/localization.py)

`self._freq = 2.`; `ontime = offtime = 1. / self._freq`.
-/

def loc_freq : ℚ := 2

def loc_ontime : ℚ := 1 / loc_freq

def loc_offtime : ℚ := 1 / loc_freq

/-- One iteration of the `while True` body of
`BlinkingLocalization.blink_led`, with `licit` the sampled
`self._licit_ip`: licit drives ko LOW then ok HIGH and sleeps `ontime`;
non-licit drives ok LOW, ko HIGH, sleeps `ontime`, drives ko LOW, sleeps
`offtime`. -/
def loc_iter (led_ok led_ko : ℕ) : Bool → List GEvent
  | true =>
    [GEvent.output led_ko false, GEvent.output led_ok true, GEvent.sleep loc_ontime]
  | false =>
    [GEvent.output led_ok false, GEvent.output led_ko true, GEvent.sleep loc_ontime,
     GEvent.output led_ko false, GEvent.sleep loc_offtime]

/-- `k` iterations of the `blink_led` loop of `BlinkingLocalization`,
sampling the shared licit flag as `samples 0, samples 1, ...`. -/
def loc_body (led_ok led_ko : ℕ) (samples : ℕ → Bool) : ℕ → List GEvent
  | 0 => []
  | Nat.succ k =>
      loc_iter led_ok led_ko (samples 0) ++ loc_body led_ok led_ko (fun i => samples (i + 1)) k

/-- A run of `BlinkingLocalization.blink_led` cancelled while suspended in
its `(n+1)`-th sleep: both pins set up OUT, the loop's events up to that
sleep, then the handler `GPIO.setup(ok, IN); GPIO.setup(ko, IN); raise`.
The `raise` re-propagates the cancellation. -/
def loc_blink_cancelled (led_ok led_ko : ℕ) (samples : ℕ → Bool) (n : ℕ) : CancelledRun :=
  { events := GEvent.setupOut led_ok :: GEvent.setupOut led_ko ::
      (cutAtSleep n (loc_body led_ok led_ko samples (n + 1)) ++
       [GEvent.setupIn led_ok, GEvent.setupIn led_ko]),
    propagates := true }

/-! ## Legacy `raspberry.blink_led` (src/raspberry.py): `ontime = offtime = 3`. -/

def rasp_ontime : ℚ := 3

/-- One iteration of the `while True` body of the legacy `blink_led`. -/
def rasp_iter (ledno : ℕ) : List GEvent :=
  [GEvent.output ledno true, GEvent.sleep rasp_ontime,
   GEvent.output ledno false, GEvent.sleep rasp_ontime]

/-- `k` iterations of the legacy `blink_led` loop. -/
def rasp_body (ledno : ℕ) : ℕ → List GEvent
  | 0 => []
  | Nat.succ k => rasp_iter ledno ++ rasp_body ledno k

/-- A run of the legacy `raspberry.blink_led` cancelled in its `(n+1)`-th
sleep; the handler sets the pin back to IN and does not re-raise. -/
def rasp_blink_cancelled (ledno : ℕ) (n : ℕ) : CancelledRun :=
  { events := GEvent.setupOut ledno ::
      (cutAtSleep n (rasp_body ledno (n + 1)) ++ [GEvent.setupIn ledno]),
    propagates := false }

/-! ## Helper lemmas -/

theorem blink_freq_eval_ne (v : ℚ) (hv : v ≠ 0) :
    blink_freq v = 1/2 + 23/1500000 * v := by
  unfold blink_freq freq_min freq_max d_speed_max
  rw [if_neg hv]
  ring

theorem blink_freq_eval_zero : blink_freq 0 = 1/2 := by
  unfold blink_freq freq_min
  rw [if_pos rfl]

theorem blink_freq_lower (v : ℚ) (h : 0 ≤ v) : freq_min ≤ blink_freq v := by
  by_cases hv : v = 0
  · subst hv
    rw [blink_freq_eval_zero]
    norm_num [freq_min]
  · rw [blink_freq_eval_ne v hv]
    have : (0:ℚ) < v := lt_of_le_of_ne h (Ne.symm hv)
    unfold freq_min
    nlinarith

theorem blink_freq_upper (v : ℚ) (h : 0 ≤ v) (hle : v ≤ d_speed_max) :
    blink_freq v ≤ freq_max := by
  by_cases hv : v = 0
  · subst hv
    rw [blink_freq_eval_zero]
    norm_num [freq_max]
  · rw [blink_freq_eval_ne v hv]
    unfold d_speed_max at hle
    unfold freq_max
    nlinarith

/-! ## Claims about the frequency mapping -/

/-- Claim C1 as stated is false on the code: `blink_led` does not clamp the
sampled speed, so at the concrete sample `1500000 > maxThroughput` it
computes `47/2 = 23.5` Hz rather than `maxFrequencyHz = 12` Hz. -/
theorem C1_no_clamp_counterexample :
    d_speed_max < (1500000 : ℚ) ∧ blink_freq 1500000 = 47/2 ∧
      blink_freq 1500000 ≠ freq_max := by
  refine ⟨by norm_num [d_speed_max], ?_, ?_⟩
  · rw [blink_freq_eval_ne 1500000 (by norm_num)]
    norm_num
  · rw [blink_freq_eval_ne 1500000 (by norm_num)]
    norm_num [freq_max]

/-- Claim C1 (amended): `blink_led` computes
`freq = minFrequencyHz + (maxFrequencyHz - minFrequencyHz)/maxThroughput * v`
for nonzero `v` and `minFrequencyHz` for `v = 0`, with no clamping: on
`0 ≤ v ≤ maxThroughput` this agrees with the spec's clamped formula, but
for every `v > maxThroughput` the computed frequency strictly exceeds
`maxFrequencyHz` and differs from the clamped formula's value. -/
theorem C1_freq_formula (v : ℚ) (h0 : 0 ≤ v) :
    (v ≤ d_speed_max → blink_freq v = clamped_spec_freq v) ∧
    (d_speed_max < v →
      freq_max < blink_freq v ∧ blink_freq v ≠ clamped_spec_freq v) := by
  constructor
  · intro hle
    have hmin : min v d_speed_max = v := min_eq_left hle
    have hmax : max 0 (min v d_speed_max) = v := by rw [hmin]; exact max_eq_right h0
    by_cases hv : v = 0
    · subst hv
      unfold clamped_spec_freq
      rw [hmax, if_neg (lt_irrefl 0), blink_freq_eval_zero]
      norm_num [freq_min]
    · have hvpos : (0:ℚ) < v := lt_of_le_of_ne h0 (Ne.symm hv)
      unfold clamped_spec_freq
      rw [hmax, if_pos hvpos, blink_freq_eval_ne v hv]
      unfold freq_min freq_max d_speed_max
      ring
  · intro hlt
    have hdpos : (0:ℚ) < d_speed_max := by norm_num [d_speed_max]
    have hv : v ≠ 0 := by
      intro h
      rw [h] at hlt
      exact absurd hlt (not_lt.mpr (le_of_lt hdpos))
    have hmin : min v d_speed_max = d_speed_max := min_eq_right (le_of_lt hlt)
    have hmax : max 0 (min v d_speed_max) = d_speed_max := by
      rw [hmin]; exact max_eq_right (le_of_lt hdpos)
    have hclamped : clamped_spec_freq v = freq_max := by
      unfold clamped_spec_freq
      rw [hmax, if_pos hdpos]
      unfold freq_min freq_max d_speed_max
      norm_num
    have hgt : freq_max < blink_freq v := by
      rw [blink_freq_eval_ne v hv]
      unfold d_speed_max at hlt
      unfold freq_max
      linarith
    exact ⟨hgt, by rw [hclamped]; exact ne_of_gt hgt⟩

/-- Witness for `C1_freq_formula` at the concrete sample `1500000`. -/
theorem C1_freq_formula_witness :
    (0 ≤ (1500000:ℚ)) ∧
    (((1500000:ℚ) ≤ d_speed_max → blink_freq 1500000 = clamped_spec_freq 1500000) ∧
     (d_speed_max < (1500000:ℚ) →
       freq_max < blink_freq 1500000 ∧ blink_freq 1500000 ≠ clamped_spec_freq 1500000)) :=
  ⟨by norm_num, C1_freq_formula 1500000 (by norm_num)⟩

/-- Claim C4: on `0 ≤ s ≤ t ≤ maxThroughput` the code's frequency mapping
is bounded by `[minFrequencyHz, maxFrequencyHz]`, monotonically
non-decreasing, and exact at both endpoints. -/
theorem C4_freq_monotone_bounded (s t : ℚ) (hs : 0 ≤ s) (hst : s ≤ t)
    (ht : t ≤ d_speed_max) :
    (freq_min ≤ blink_freq s ∧ blink_freq s ≤ freq_max) ∧
    blink_freq s ≤ blink_freq t ∧
    blink_freq 0 = freq_min ∧ blink_freq d_speed_max = freq_max := by
  have hsd : s ≤ d_speed_max := le_trans hst ht
  have ht0 : 0 ≤ t := le_trans hs hst
  refine ⟨⟨blink_freq_lower s hs, blink_freq_upper s hs hsd⟩, ?_, ?_, ?_⟩
  · by_cases hsz : s = 0
    · subst hsz
      rw [blink_freq_eval_zero]
      have := blink_freq_lower t ht0
      unfold freq_min at this
      linarith
    · have htz : t ≠ 0 := by
        intro h
        rw [h] at hst
        exact hsz (le_antisymm hst hs)
      rw [blink_freq_eval_ne s hsz, blink_freq_eval_ne t htz]
      linarith
  · rw [blink_freq_eval_zero]
    norm_num [freq_min]
  · rw [blink_freq_eval_ne d_speed_max (by norm_num [d_speed_max])]
    norm_num [d_speed_max, freq_max]

/-- Witness for `C4_freq_monotone_bounded` at `s = 0`, `t = 375000`. -/
theorem C4_freq_monotone_bounded_witness :
    (0 ≤ (0:ℚ) ∧ (0:ℚ) ≤ 375000 ∧ (375000:ℚ) ≤ d_speed_max) ∧
    ((freq_min ≤ blink_freq 0 ∧ blink_freq 0 ≤ freq_max) ∧
     blink_freq 0 ≤ blink_freq 375000 ∧
     blink_freq 0 = freq_min ∧ blink_freq d_speed_max = freq_max) :=
  ⟨⟨le_refl 0, by norm_num, by norm_num [d_speed_max]⟩,
   C4_freq_monotone_bounded 0 375000 (le_refl 0) (by norm_num) (by norm_num [d_speed_max])⟩

/-- Claim C8: for every non-negative sampled speed the computed frequency
is at least `minFrequencyHz`, strictly positive and nonzero, so the
half-period `ontime = 1/freq` is well defined and positive. -/
theorem C8_freq_never_zero (v : ℚ) (h : 0 ≤ v) :
    freq_min ≤ blink_freq v ∧ 0 < blink_freq v ∧ blink_freq v ≠ 0 ∧
      0 < blink_ontime v := by
  have hlow := blink_freq_lower v h
  have hpos : (0:ℚ) < blink_freq v := by
    unfold freq_min at hlow
    linarith
  exact ⟨hlow, hpos, ne_of_gt hpos, by unfold blink_ontime; exact one_div_pos.mpr hpos⟩

/-- Witness for `C8_freq_never_zero` at `v = 0`. -/
theorem C8_freq_never_zero_witness :
    (0 ≤ (0:ℚ)) ∧
    (freq_min ≤ blink_freq 0 ∧ 0 < blink_freq 0 ∧ blink_freq 0 ≠ 0 ∧
      0 < blink_ontime 0) :=
  ⟨le_refl 0, C8_freq_never_zero 0 (le_refl 0)⟩

/-- Claim C5 as stated is false on the code: `blink_led` sets
`ontime = offtime = 1. / freq`, not `1/(2*freq)`; at the scenario sample
`375000` the frequency is `25/4 = 6.25` Hz but the on-time is
`4/25 = 0.16` s, not `0.08` s. -/
theorem C5_half_period_counterexample :
    blink_freq 375000 = 25/4 ∧ blink_ontime 375000 = 4/25 ∧
      blink_ontime 375000 ≠ 1 / (2 * blink_freq 375000) ∧
      blink_ontime 375000 ≠ 2/25 := by
  have hfreq : blink_freq 375000 = 25/4 := by
    rw [blink_freq_eval_ne 375000 (by norm_num)]
    norm_num
  have hontime : blink_ontime 375000 = 4/25 := by
    unfold blink_ontime
    rw [hfreq]
    norm_num
  refine ⟨hfreq, hontime, ?_, ?_⟩
  · rw [hontime, hfreq]
    norm_num
  · rw [hontime]
    norm_num

/-- Claim C5 (amended): the throughput indicator drives a symmetric square
wave whose on-time and off-time each equal `1/freq` seconds (so a full
cycle lasts `2/freq`); with `minFrequencyHz = 0.5`, `maxFrequencyHz = 12`,
`maxThroughput = 750000` and a sample of `375000`, the computed frequency
is `6.25` and the on-time is `0.16` s. -/
theorem C5_square_wave (led : ℕ) (v : ℚ) :
    sleepDurations (trans_iter led v) = [1 / blink_freq v, 1 / blink_freq v] ∧
    blink_freq 375000 = 25/4 ∧ blink_ontime 375000 = 4/25 := by
  refine ⟨rfl, ?_, ?_⟩
  · rw [blink_freq_eval_ne 375000 (by norm_num)]
    norm_num
  · unfold blink_ontime
    rw [blink_freq_eval_ne 375000 (by norm_num)]
    norm_num

/-! ## Monitor-loop claims -/

theorem get_download_speed_trace_length (delay : ℚ) (inputs : List StatsResult) :
    (get_download_speed_trace delay inputs).length = 2 * inputs.length := by
  induction inputs with
  | nil => rfl
  | cons r rest ih =>
      simp only [get_download_speed_trace, List.length_cons, ih]
      omega

theorem check_localisation_trace_length (forbidden : List String) (delay : ℚ)
    (locs : List (Option String)) :
    (check_localisation_trace forbidden delay locs).length = 2 * locs.length := by
  induction locs with
  | nil => rfl
  | cons loc rest ih =>
      simp only [check_localisation_trace, List.length_cons, ih]
      omega

/-- Claim C2: a failed stats call (no stats, or stats lacking the
`downloadSpeed` key) makes the throughput monitor write `0` to the shared
state, a failed localization check makes the localization monitor write
`false`, and in each case the loop sleeps its normal delay and goes on to
process the remaining iterations (one write and one sleep per iteration,
never an early exit). -/
theorem C2_monitor_failure_fallback (delay : ℚ) (forbidden : List String)
    (rest : List StatsResult) (locs : List (Option String)) :
    get_download_speed_trace delay (StatsResult.statsNone :: rest) =
      MonEvent.writeSpeed 0 :: MonEvent.sleep delay :: get_download_speed_trace delay rest ∧
    get_download_speed_trace delay (StatsResult.missingKey :: rest) =
      MonEvent.writeSpeed 0 :: MonEvent.sleep delay :: get_download_speed_trace delay rest ∧
    check_localisation_trace forbidden delay (none :: locs) =
      MonEvent.writeLicit false :: MonEvent.sleep delay ::
        check_localisation_trace forbidden delay locs ∧
    (get_download_speed_trace delay rest).length = 2 * rest.length ∧
    (check_localisation_trace forbidden delay locs).length = 2 * locs.length :=
  ⟨rfl, rfl, rfl, get_download_speed_trace_length delay rest,
    check_localisation_trace_length forbidden delay locs⟩

/-- Claim C7: `check_licit_ip` returns `false` whenever the lookup yields
no country (`None`, or the falsy empty name), and otherwise decides
licitness by a case-insensitive comparison of the returned country name
against the configured forbidden-country list. -/
theorem C7_check_licit_ip (forbidden : List String) (c : String) (hc : c ≠ "") :
    check_licit_ip none forbidden = false ∧
    check_licit_ip (some "") forbidden = false ∧
    check_licit_ip (some c) forbidden =
      !((forbidden.map String.toLower).contains c.toLower) := by
  refine ⟨rfl, rfl, ?_⟩
  simp only [check_licit_ip]
  rw [if_neg hc]
  cases hmem : (forbidden.map String.toLower).contains c.toLower <;> simp [hmem]

/-- Witness for `C7_check_licit_ip` with a nonempty country name. -/
theorem C7_check_licit_ip_witness :
    ("France" ≠ "") ∧
    (check_licit_ip none ["GERMANY"] = false ∧
     check_licit_ip (some "") ["GERMANY"] = false ∧
     check_licit_ip (some "France") ["GERMANY"] =
       !((["GERMANY"].map String.toLower).contains ("France").toLower)) :=
  ⟨by decide, C7_check_licit_ip ["GERMANY"] "France" (by decide)⟩

/-! ## Cancellation teardown claims -/

theorem modeAfter_append (p : ℕ) (a b : List GEvent) (m : PinMode) :
    modeAfter p (a ++ b) m = modeAfter p b (modeAfter p a m) := by
  unfold modeAfter
  exact List.foldl_append _ _ _ _

theorem modeAfter_teardown_single (x : ℕ) (pre : List GEvent) (m : PinMode) :
    modeAfter x (pre ++ [GEvent.setupIn x]) m = PinMode.neutral := by
  rw [modeAfter_append]
  simp [modeAfter, modeStep]

theorem modeAfter_teardown_pair (p x y : ℕ) (pre : List GEvent) (m : PinMode)
    (hp : p = x ∨ p = y) :
    modeAfter p (pre ++ [GEvent.setupIn x, GEvent.setupIn y]) m = PinMode.neutral := by
  rw [modeAfter_append]
  rcases hp with h | h <;> subst h
  · by_cases hyx : y = p <;> simp [modeAfter, modeStep, hyx]
  · simp [modeAfter, modeStep]

/-- Claim C3: whenever a blinking coroutine is cancelled — at whichever of
its timed sleeps the cancellation is delivered — every output pin it owns
is left in the neutral (input) mode when the coroutine exits: both pins of
`BlinkingLocalization.blink_led`, the pin of
`BlinkingDownloadSpeed.blink_led`, and the pin of the legacy
`raspberry.blink_led`. -/
theorem C3_cancellation_teardown (led led_ok led_ko ledno : ℕ) (sp : ℕ → ℚ)
    (sb : ℕ → Bool) (n m k : ℕ) (mo : PinMode) :
    modeAfter led_ok (loc_blink_cancelled led_ok led_ko sb n).events mo = PinMode.neutral ∧
    modeAfter led_ko (loc_blink_cancelled led_ok led_ko sb n).events mo = PinMode.neutral ∧
    modeAfter led (trans_blink_cancelled led sp m).events mo = PinMode.neutral ∧
    modeAfter ledno (rasp_blink_cancelled ledno k).events mo = PinMode.neutral := by
  refine ⟨?_, ?_, ?_, ?_⟩
  · exact modeAfter_teardown_pair led_ok led_ok led_ko
      (GEvent.setupOut led_ok :: GEvent.setupOut led_ko ::
        cutAtSleep n (loc_body led_ok led_ko sb (n + 1))) mo (Or.inl rfl)
  · exact modeAfter_teardown_pair led_ko led_ok led_ko
      (GEvent.setupOut led_ok :: GEvent.setupOut led_ko ::
        cutAtSleep n (loc_body led_ok led_ko sb (n + 1))) mo (Or.inr rfl)
  · exact modeAfter_teardown_single led
      (GEvent.setupOut led :: cutAtSleep m (trans_body led sp (m + 1))) mo
  · exact modeAfter_teardown_single ledno
      (GEvent.setupOut ledno :: cutAtSleep k (rasp_body ledno (k + 1))) mo

/-- Claim C10: `BlinkingDownloadSpeed.blink_led` does not re-raise the
`CancelledError` after its teardown while `BlinkingLocalization.blink_led`
does, so cancellation propagates out of the localization driver but not
out of the throughput driver. -/
theorem C10_cancellation_propagation (led led_ok led_ko : ℕ) (sp : ℕ → ℚ)
    (sb : ℕ → Bool) (n m : ℕ) :
    (trans_blink_cancelled led sp m).propagates = false ∧
    (loc_blink_cancelled led_ok led_ko sb n).propagates = true ∧
    (trans_blink_cancelled led sp m).propagates ≠
      (loc_blink_cancelled led_ok led_ko sb n).propagates :=
  ⟨rfl, rfl, by simp [trans_blink_cancelled, loc_blink_cancelled]⟩

/-! ## Localization waveform claims -/

/-- Claim C6: in every iteration of `BlinkingLocalization.blink_led`, from
any pin levels: a sampled `true` yields exactly one sleep — the whole
sample period — during which the OK pin is driven HIGH, while a sampled
`false` yields two sleeps of equal length `ontime = offtime` with the KO
pin HIGH during the first and LOW during the second (a 50% duty cycle). -/
theorem C6_localization_waveform (led_ok led_ko : ℕ) (L : ℕ → Bool) :
    (sleepSnapshots L (loc_iter led_ok led_ko true)).map (fun s => (s.1 led_ok, s.2)) =
      [(true, loc_ontime)] ∧
    (sleepSnapshots L (loc_iter led_ok led_ko false)).map (fun s => (s.1 led_ko, s.2)) =
      [(true, loc_ontime), (false, loc_offtime)] ∧
    loc_ontime = loc_offtime := by
  refine ⟨?_, ?_, rfl⟩ <;> simp [loc_iter, sleepSnapshots, updateLevel]

theorem sleepSnapshots_append (a b : List GEvent) (L : ℕ → Bool) :
    sleepSnapshots L (a ++ b) =
      sleepSnapshots L a ++ sleepSnapshots (runLevels L a) b := by
  induction a generalizing L with
  | nil => rfl
  | cons e rest ih => cases e <;> simp [sleepSnapshots, runLevels, ih]

theorem cutAtSleep_extends (n : ℕ) (l : List GEvent) :
    ∃ t, l = cutAtSleep n l ++ t := by
  induction l generalizing n with
  | nil => exact ⟨[], rfl⟩
  | cons e rest ih =>
      cases e with
      | setupOut p =>
          obtain ⟨t, ht⟩ := ih n
          exact ⟨t, congrArg (fun r => GEvent.setupOut p :: r) ht⟩
      | setupIn p =>
          obtain ⟨t, ht⟩ := ih n
          exact ⟨t, congrArg (fun r => GEvent.setupIn p :: r) ht⟩
      | output p b =>
          obtain ⟨t, ht⟩ := ih n
          exact ⟨t, congrArg (fun r => GEvent.output p b :: r) ht⟩
      | sleep d =>
          cases n with
          | zero => exact ⟨GEvent.sleep d :: rest, rfl⟩
          | succ m =>
              obtain ⟨t, ht⟩ := ih m
              exact ⟨t, congrArg (fun r => GEvent.sleep d :: r) ht⟩

theorem loc_iter_mutex (led_ok led_ko : ℕ) (h : led_ok ≠ led_ko) (b : Bool)
    (L : ℕ → Bool) :
    ∀ s ∈ sleepSnapshots L (loc_iter led_ok led_ko b),
      ¬(s.1 led_ok = true ∧ s.1 led_ko = true) := by
  have h2 : led_ko ≠ led_ok := Ne.symm h
  cases b <;> intro s hs <;>
    simp only [loc_iter, sleepSnapshots, List.mem_cons, List.not_mem_nil,
      or_false] at hs
  · rcases hs with hs | hs <;> subst hs <;> simp [updateLevel, h, h2]
  · subst hs
    simp [updateLevel, h, h2]

theorem loc_body_mutex (led_ok led_ko : ℕ) (h : led_ok ≠ led_ko)
    (samples : ℕ → Bool) (k : ℕ) (L : ℕ → Bool) :
    ∀ s ∈ sleepSnapshots L (loc_body led_ok led_ko samples k),
      ¬(s.1 led_ok = true ∧ s.1 led_ko = true) := by
  induction k generalizing samples L with
  | zero =>
      intro s hs
      simp [loc_body, sleepSnapshots] at hs
  | succ k ih =>
      intro s hs
      rw [loc_body, sleepSnapshots_append] at hs
      rcases List.mem_append.mp hs with hmem | hmem
      · exact loc_iter_mutex led_ok led_ko h (samples 0) L s hmem
      · exact ih (fun i => samples (i + 1))
          (runLevels L (loc_iter led_ok led_ko (samples 0))) s hmem

/-- Claim C9: at every timed sleep of a cancelled run of
`BlinkingLocalization.blink_led` — whatever the samples, the starting pin
levels and the point of cancellation — the OK and KO pins are never both
driven HIGH. -/
theorem C9_outputs_mutually_exclusive (led_ok led_ko : ℕ) (h : led_ok ≠ led_ko)
    (L : ℕ → Bool) (samples : ℕ → Bool) (n : ℕ) :
    ∀ s ∈ sleepSnapshots L (loc_blink_cancelled led_ok led_ko samples n).events,
      ¬(s.1 led_ok = true ∧ s.1 led_ko = true) := by
  intro s hs
  have hbody : s ∈ sleepSnapshots L (loc_body led_ok led_ko samples (n + 1)) := by
    simp only [loc_blink_cancelled, sleepSnapshots, sleepSnapshots_append,
      List.append_nil] at hs
    obtain ⟨t, ht⟩ := cutAtSleep_extends n (loc_body led_ok led_ko samples (n + 1))
    rw [ht, sleepSnapshots_append]
    exact List.mem_append_left _ hs
  exact loc_body_mutex led_ok led_ko h samples (n + 1) L s hbody

/-- Witness for `C9_outputs_mutually_exclusive` with pins 3 and 5. -/
theorem C9_outputs_mutually_exclusive_witness :
    (3 : ℕ) ≠ 5 ∧
    ∀ s ∈ sleepSnapshots (fun _ => false)
        (loc_blink_cancelled 3 5 (fun _ => false) 1).events,
      ¬(s.1 3 = true ∧ s.1 5 = true) :=
  ⟨by decide,
   C9_outputs_mutually_exclusive 3 5 (by decide) (fun _ => false) (fun _ => false) 1⟩

end SeedWatcher
